import Mathlib

/-!
# Verification of the project-selection optimiser

A shallow embedding of `src/project_selection_optimisation_example.ipynb`:
the `Project` / `TeamMember` dataclasses with their `__post_init__`
validation, the PuLP model (decision variables, objective, constraints) and
the result-interpretation cells, together with proofs and refutations of the
specification's claims about them.
-/

/-! ## Python dynamic values

The notebook validates attributes with `validate_annotations`, which checks
each attribute against its declared annotation using `isinstance` (with the
special case for `List[str]`).  We embed the relevant slice of Python's
dynamic value universe.  `isinstance(b, int)` is true for a `bool` because
`bool` is a subclass of `int` in Python. -/

inductive PyVal where
  | pyStr (s : String)
  | pyInt (n : Int)
  | pyBool (b : Bool)
  | pyFloat (q : ℚ)
  | pyList (xs : List PyVal)

/-- `isinstance(v, str)`. -/
def pyIsStr : PyVal → Bool
  | .pyStr _ => true
  | _ => false

/-- `isinstance(v, int)`; true for `bool` since `bool` subclasses `int`. -/
def pyIsInt : PyVal → Bool
  | .pyInt _ => true
  | .pyBool _ => true
  | _ => false

/-- The `List[str]` branch of `validate_annotations`:
`isinstance(v, list) and all(isinstance(i, str) for i in v)`. -/
def pyIsStrList : PyVal → Bool
  | .pyList xs => xs.all pyIsStr
  | _ => false

/-- Extraction of a `str` attribute (defined exactly when `pyIsStr`). -/
def pyAsStr : PyVal → Option String
  | .pyStr s => some s
  | _ => none

/-- Extraction of an `int` attribute.  Python's `True == 1` and
`False == 0`, so a `bool` extracts to the corresponding integer (this is how
`True in {0, 1, 2, 3}` behaves in the `__post_init__` assertions). -/
def pyAsInt : PyVal → Option Int
  | .pyInt n => some n
  | .pyBool b => some (if b then 1 else 0)
  | _ => none

/-- Element-wise extraction of a list of `str` values. -/
def strListOf : List PyVal → Option (List String)
  | [] => some []
  | v :: rest =>
    match pyAsStr v, strListOf rest with
    | some s, some l => some (s :: l)
    | _, _ => none

/-- Extraction of a `List[str]` attribute. -/
def pyAsStrList : PyVal → Option (List String)
  | .pyList xs => strListOf xs
  | _ => none

/-! ## Domain entities

Validated records mirroring the `Project` and `TeamMember` dataclasses,
with the source's field names. -/

structure Project where
  name : String
  hours_saved_per_month : Int
  hours_to_implement : Int
  skills_required : List String
  python_level_required : Int
  deriving DecidableEq

structure TeamMember where
  name : String
  hours_available : Int
  skills : List String
  python_level : Int
  deriving DecidableEq

/-- Raw (dynamically typed) constructor arguments for `Project`. -/
structure ProjectInput where
  name : PyVal
  hours_saved_per_month : PyVal
  hours_to_implement : PyVal
  skills_required : PyVal
  python_level_required : PyVal

/-- Raw (dynamically typed) constructor arguments for `TeamMember`. -/
structure TeamMemberInput where
  name : PyVal
  hours_available : PyVal
  skills : PyVal
  python_level : PyVal

/-- `validate_annotations` specialised to `Project`'s declared annotations
(`str`, `int`, `int`, `List[str]`, `int`). -/
def validateTypesProject (x : ProjectInput) : Bool :=
  pyIsStr x.name && pyIsInt x.hours_saved_per_month &&
    pyIsInt x.hours_to_implement && pyIsStrList x.skills_required &&
    pyIsInt x.python_level_required

/-- `validate_annotations` specialised to `TeamMember`'s declared
annotations (`str`, `int`, `List[str]`, `int`). -/
def validateTypesTeamMember (x : TeamMemberInput) : Bool :=
  pyIsStr x.name && pyIsInt x.hours_available && pyIsStrList x.skills &&
    pyIsInt x.python_level

/-- The `__post_init__` assertion `python_level in {0, 1, 2, 3}`. -/
def validLevel (lvl : Int) : Bool :=
  lvl == 0 || lvl == 1 || lvl == 2 || lvl == 3

/-- The `__post_init__` assertion
`set(skills).issubset({"APIs", "Excel", "SQL"})`. -/
def validSkills (sk : List String) : Bool :=
  sk.all (fun s => s == "APIs" || s == "Excel" || s == "SQL")

/-- Constructing a `Project`: `validate_annotations` (type extraction) then
the two `__post_init__` assertions.  `none` models a raised
`AssertionError`; the notebook performs no further checks (in particular no
sign check on the numeric fields). -/
def mkProject (x : ProjectInput) : Option Project :=
  match pyAsStr x.name, pyAsInt x.hours_saved_per_month,
      pyAsInt x.hours_to_implement, pyAsStrList x.skills_required,
      pyAsInt x.python_level_required with
  | some nm, some hs, some hi, some sk, some lvl =>
    if validLevel lvl && validSkills sk then some ⟨nm, hs, hi, sk, lvl⟩
    else none
  | _, _, _, _, _ => none

/-- Constructing a `TeamMember`, mirroring its `__post_init__`. -/
def mkTeamMember (x : TeamMemberInput) : Option TeamMember :=
  match pyAsStr x.name, pyAsInt x.hours_available, pyAsStrList x.skills,
      pyAsInt x.python_level with
  | some nm, some hrs, some sk, some lvl =>
    if validLevel lvl && validSkills sk then some ⟨nm, hrs, sk, lvl⟩
    else none
  | _, _, _, _ => none

/-! ## The MIP model

The notebook's `problem`: one binary variable `SelectProject_{p.name}` per
project, one binary variable `Assign_(tm.name, p.name)` per pair, the
objective `Σ select[p] · hours_saved_per_month[p]`, and four active
constraint families (the `Max_Concurrent_Projects` block is commented out
in the source).  A `Solution` records the solver's values for the two
variable dictionaries; binarity of the `cat="Binary"` variables is part of
feasibility. -/

structure Solution where
  select : String → Int
  assign : String → String → Int

/-- `set(p.skills_required).issubset(set(tm.skills))`. -/
def skillsOK (p : Project) (tm : TeamMember) : Prop :=
  ∀ sk ∈ p.skills_required, sk ∈ tm.skills

instance (p : Project) (tm : TeamMember) : Decidable (skillsOK p tm) :=
  List.decidableBAll _ _

/-- The guard of the `Skill_Python_Level_Match` constraint family: the
constraint `assign == 0` is emitted exactly for pairs failing this. -/
def qualified (tm : TeamMember) (p : Project) : Prop :=
  skillsOK p tm ∧ p.python_level_required ≤ tm.python_level

instance (tm : TeamMember) (p : Project) : Decidable (qualified tm p) :=
  instDecidableAnd

/-- The left-hand side of the `Hours_Available_{tm.name}` constraint:
`lpSum([assign[(tm, p)] * p.hours_to_implement for p in projects])`. -/
def chargedSum (ps : List Project) (s : Solution) (tm : TeamMember) : Int :=
  (ps.map (fun p => s.assign tm.name p.name * p.hours_to_implement)).sum

/-- The left-hand side of the `Team_Assignment_{p.name}` constraint:
`lpSum([assign[(tm, p)] for tm in team])`. -/
def assignedCount (team : List TeamMember) (s : Solution) (p : Project) :
    Int :=
  (team.map (fun tm => s.assign tm.name p.name)).sum

/-- The conjunction of every constraint the notebook emits into `problem`,
plus binarity of the `cat="Binary"` variables. -/
def feasible (ps : List Project) (team : List TeamMember) (s : Solution) :
    Prop :=
  (∀ p ∈ ps, s.select p.name = 0 ∨ s.select p.name = 1) ∧
  (∀ tm ∈ team, ∀ p ∈ ps,
    s.assign tm.name p.name = 0 ∨ s.assign tm.name p.name = 1) ∧
  (∀ tm ∈ team, ∀ p ∈ ps, s.assign tm.name p.name ≤ s.select p.name) ∧
  (∀ p ∈ ps, ∀ tm ∈ team, ¬ qualified tm p → s.assign tm.name p.name = 0) ∧
  (∀ tm ∈ team, chargedSum ps s tm ≤ tm.hours_available) ∧
  (∀ p ∈ ps, s.select p.name ≤ assignedCount team s p)

instance (ps : List Project) (team : List TeamMember) (s : Solution) :
    Decidable (feasible ps team s) := by
  unfold feasible
  infer_instance

/-- The objective `lpSum([select[p] * p.hours_saved_per_month])`. -/
def objectiveValue (ps : List Project) (s : Solution) : Int :=
  (ps.map (fun p => s.select p.name * p.hours_saved_per_month)).sum

/-- Cell 27: `selected_projects`, the names whose `SelectProject` variable
has `varValue == 1`, in input order. -/
def selectedProjectNames (ps : List Project) (s : Solution) : List String :=
  (ps.filter (fun p => s.select p.name == 1)).map (fun p => p.name)

/-- Cell 29: `total_hours_saved`, recomputed from the entity data over the
selected projects. -/
def totalHoursSaved (ps : List Project) (s : Solution) : Int :=
  ((ps.filter (fun p => s.select p.name == 1)).map
    (fun p => p.hours_saved_per_month)).sum

/-- Cell 27's nested loop building `team_assignments` (members outer,
projects inner, keeping pairs with `varValue == 1`). -/
def teamAssignments : List TeamMember → List Project → Solution →
    List (String × String)
  | [], _, _ => []
  | tm :: rest, ps, s =>
    ((ps.filter (fun p => s.assign tm.name p.name == 1)).map
      (fun p => (tm.name, p.name))) ++ teamAssignments rest ps s

/-- The hours charged to a member by the projects it is assigned to, each
at its full `hours_to_implement`. -/
def memberChargedHours (ps : List Project) (s : Solution)
    (tm : TeamMember) : Int :=
  ((ps.filter (fun p => s.assign tm.name p.name == 1)).map
    (fun p => p.hours_to_implement)).sum

/-- An optimal solve: CBC reports status `Optimal` exactly when it returns
a feasible assignment maximising the objective. -/
def isOptimal (ps : List Project) (team : List TeamMember) (s : Solution) :
    Prop :=
  feasible ps team s ∧
    ∀ s', feasible ps team s' → objectiveValue ps s' ≤ objectiveValue ps s

/-- Modelled from the spec: the `Max_Concurrent_Projects` constraint
`lpSum([select[p] for p in projects]) <= bound` exists in the source only
as a commented-out block (cell 14); the spec (§4.2) makes the bound an
optional input whose constraint is emitted only when the bound is present.
The constraint expression itself is the commented-out code's. -/
def feasibleCap (cap : Option Int) (ps : List Project)
    (team : List TeamMember) (s : Solution) : Prop :=
  feasible ps team s ∧
    match cap with
    | none => True
    | some k => (ps.map (fun p => s.select p.name)).sum ≤ k

instance (cap : Option Int) (ps : List Project) (team : List TeamMember)
    (s : Solution) : Decidable (feasibleCap cap ps team s) := by
  unfold feasibleCap
  cases cap <;> dsimp only <;> infer_instance

/-- The keys of `LpVariable.dicts(name="SelectProject", indices=[p.name for
p in projects])`: a Python dict keyed by project name, so a duplicated name
is silently collapsed onto a single key (first occurrence keeps its place,
later insertions overwrite the value). -/
def dictKeys : List String → List String
  | [] => []
  | n :: rest => n :: (dictKeys rest).filter (fun m => m != n)

/-- The project-variable index built by the notebook. -/
def projectVarKeys (ps : List Project) : List String :=
  dictKeys (ps.map (fun p => p.name))

/-! ## Reference data (cell 4) -/

def p1 : Project :=
  ⟨"Secondary Deliverables reporting", 20, 160, ["SQL", "Excel"], 2⟩
def p2 : Project :=
  ⟨"I&M Work Order generation", 40, 200, ["SQL", "Excel", "APIs"], 1⟩
def p3 : Project := ⟨"ISS", 5, 80, ["SQL"], 1⟩
def p4 : Project := ⟨"Network Interventions lists", 5, 40, ["SQL"], 1⟩
def p5 : Project :=
  ⟨"Pulse Report report generation", 10, 80, ["SQL", "APIs"], 3⟩

def refProjects : List Project := [p1, p2, p3, p4, p5]

def m1 : TeamMember := ⟨"Kermit the Frog", 180, ["SQL", "Excel"], 2⟩
def m2 : TeamMember := ⟨"Sweetums", 140, ["Excel"], 1⟩
def m3 : TeamMember := ⟨"Dr Bunsen Honeydew", 160, ["APIs", "SQL", "Excel"], 3⟩
def m4 : TeamMember := ⟨"Fozzie the Bear", 220, ["SQL", "Excel"], 2⟩
def m5 : TeamMember := ⟨"Pepe the King Prawn", 120, ["SQL", "Excel"], 1⟩
def m6 : TeamMember := ⟨"Rowlf the Dog", 140, ["APIs", "SQL", "Excel"], 3⟩

def refTeam : List TeamMember := [m1, m2, m3, m4, m5, m6]

/-- The assignment CBC returned in the notebook run (cell 27's output). -/
def refSolution : Solution where
  select := fun n => if n = "I&M Work Order generation" then 0 else 1
  assign := fun m p =>
    if (m = "Dr Bunsen Honeydew" ∧ p = "Secondary Deliverables reporting") ∨
        (m = "Pepe the King Prawn" ∧ p = "ISS") ∨
        (m = "Pepe the King Prawn" ∧ p = "Network Interventions lists") ∨
        (m = "Rowlf the Dog" ∧ p = "Pulse Report report generation")
    then 1 else 0

/-- The all-zero solution (nothing selected, nobody assigned). -/
def zeroSolution : Solution where
  select := fun _ => 0
  assign := fun _ _ => 0

/-! ## The result interpreter over raw adapter values

`varValue` is a Python float; the adapter may return values that are not
exactly 0 or 1.  We model the returned values as rationals and embed the
interpretation cells (25, 27, 29, 30) over them.  The comparison the code
performs is `varValue == 1`, exact equality. -/

/-- `LpStatus[problem.status]` values. -/
inductive SolveStatus where
  | Optimal
  | Infeasible
  | Unbounded
  | NotSolved
  | Undefined
  deriving DecidableEq

/-- Raw variable values as returned by the solver adapter. -/
structure VarValues where
  select : String → ℚ
  assign : String → String → ℚ

/-- Cell 27's `selected_projects` over raw values: keeps `p` when
`project_variables[p.name].varValue == 1`. -/
def qSelectedNames (ps : List Project) (v : VarValues) : List String :=
  (ps.filter (fun p => v.select p.name == 1)).map (fun p => p.name)

/-- Cell 27's `team_assignments` over raw values. -/
def qAssignments : List TeamMember → List Project → VarValues →
    List (String × String)
  | [], _, _ => []
  | tm :: rest, ps, v =>
    ((ps.filter (fun p => v.assign tm.name p.name == 1)).map
      (fun p => (tm.name, p.name))) ++ qAssignments rest ps v

/-- Cell 29's `total_hours_saved` over raw values. -/
def qTotalSaved (ps : List Project) (v : VarValues) : Int :=
  ((ps.filter (fun p => v.select p.name == 1)).map
    (fun p => p.hours_saved_per_month)).sum

/-- The summary the notebook surfaces (cell 30): the status together with
the selections, assignments and total recomputed from the variable values.
None of the extraction cells inspects `problem.status`. -/
structure Report where
  status : SolveStatus
  selected : List String
  assignments : List (String × String)
  totalBenefit : Int

/-- Cells 25–30 as one function: from a solve status and the raw variable
values to the surfaced summary. -/
def interpretResult (ps : List Project) (team : List TeamMember)
    (st : SolveStatus) (v : VarValues) : Report :=
  ⟨st, qSelectedNames ps v, qAssignments team ps v, qTotalSaved ps v⟩

/-- Follows the spec's words (§4.3): a binary variable counts as selected
when its raw value rounds at the 0.5 threshold, rather than requiring exact
equality with 1. -/
def qSelectedNamesSpec (ps : List Project) (v : VarValues) : List String :=
  (ps.filter (fun p => decide ((1 : ℚ)/2 < v.select p.name))).map
    (fun p => p.name)

/-- An adapter answer whose binary values are all 0.999999: rounds to 1 at
the 0.5 threshold but is not bit-exactly 1. -/
def vNear : VarValues where
  select := fun _ => 999999/1000000
  assign := fun _ _ => 0

/-- An adapter answer selecting exactly the project `ISS`. -/
def vOne : VarValues where
  select := fun n => if n = "ISS" then 1 else 0
  assign := fun _ _ => 0

/-- Follows the claim's words (C10): exact conformance to the annotated
`int` type, i.e. `type(v) is int`; a Python `bool` is not exactly an
`int`. -/
def pyExactInt : PyVal → Bool
  | .pyInt _ => true
  | _ => false

/-- Two distinct projects sharing the name `"X"`. -/
def dupA : Project := ⟨"X", 1, 1, [], 0⟩

/-- A second project also named `"X"`, with different attributes. -/
def dupB : Project := ⟨"X", 2, 3, [], 0⟩

/-! ## Helper lemmas -/

lemma pyAsStr_isStr {v : PyVal} {s : String} (h : pyAsStr v = some s) :
    pyIsStr v = true := by
  cases v <;> simp_all [pyAsStr, pyIsStr]

lemma pyAsInt_isInt {v : PyVal} {n : Int} (h : pyAsInt v = some n) :
    pyIsInt v = true := by
  cases v <;> simp_all [pyAsInt, pyIsInt]

lemma strListOf_all {xs : List PyVal} {l : List String}
    (h : strListOf xs = some l) : xs.all pyIsStr = true := by
  induction xs generalizing l with
  | nil => simp
  | cons a rest ih =>
    unfold strListOf at h
    cases ha : pyAsStr a with
    | none => rw [ha] at h; simp at h
    | some s =>
      rw [ha] at h
      cases hr : strListOf rest with
      | none => rw [hr] at h; simp at h
      | some l' =>
        rw [hr] at h
        simp [List.all_cons, pyAsStr_isStr ha, ih hr]

lemma pyAsStrList_isStrList {v : PyVal} {l : List String}
    (h : pyAsStrList v = some l) : pyIsStrList v = true := by
  cases v <;> simp_all [pyAsStrList, pyIsStrList]
  case pyList xs => exact List.all_eq_true.mp (strListOf_all h)

lemma strListOf_map_pyStr (sk : List String) :
    strListOf (sk.map PyVal.pyStr) = some sk := by
  induction sk with
  | nil => rfl
  | cons a rest ih => simp [strListOf, pyAsStr, ih]

/-- A successful `mkProject` implies every `validate_annotations` and
`__post_init__` check passed. -/
lemma mkProject_types {x : ProjectInput} {p : Project}
    (h : mkProject x = some p) :
    validateTypesProject x = true ∧ validLevel p.python_level_required = true ∧
      validSkills p.skills_required = true := by
  unfold mkProject at h
  split at h
  case _ nm hs hi sk lvl h1 h2 h3 h4 h5 =>
    split at h
    case isTrue hcond =>
      obtain ⟨hl, hsk⟩ := Bool.and_eq_true .. |>.mp hcond
      cases h
      refine ⟨?_, hl, hsk⟩
      simp [validateTypesProject, pyAsStr_isStr h1, pyAsInt_isInt h2,
        pyAsInt_isInt h3, pyAsStrList_isStrList h4, pyAsInt_isInt h5]
    case isFalse => exact absurd h (by simp)
  case _ => exact absurd h (by simp)

/-- A successful `mkTeamMember` implies every check passed. -/
lemma mkTeamMember_types {x : TeamMemberInput} {t : TeamMember}
    (h : mkTeamMember x = some t) :
    validateTypesTeamMember x = true ∧ validLevel t.python_level = true ∧
      validSkills t.skills = true := by
  unfold mkTeamMember at h
  split at h
  case _ nm hrs sk lvl h1 h2 h3 h4 =>
    split at h
    case isTrue hcond =>
      obtain ⟨hl, hsk⟩ := Bool.and_eq_true .. |>.mp hcond
      cases h
      refine ⟨?_, hl, hsk⟩
      simp [validateTypesTeamMember, pyAsStr_isStr h1, pyAsInt_isInt h2,
        pyAsStrList_isStrList h3, pyAsInt_isInt h4]
    case isFalse => exact absurd h (by simp)
  case _ => exact absurd h (by simp)

lemma validLevel_cases {lvl : Int} (h : validLevel lvl = true) :
    lvl = 0 ∨ lvl = 1 ∨ lvl = 2 ∨ lvl = 3 := by
  simp [validLevel, beq_iff_eq] at h
  omega

lemma validSkills_cases {sk : List String} (h : validSkills sk = true) :
    ∀ s ∈ sk, s = "APIs" ∨ s = "Excel" ∨ s = "SQL" := by
  intro s hs
  have h2 := List.all_eq_true.mp h s hs
  simp [beq_iff_eq] at h2
  tauto

lemma dictKeys_nodup (l : List String) : (dictKeys l).Nodup := by
  induction l with
  | nil => simp [dictKeys]
  | cons a rest ih =>
    simp only [dictKeys]
    refine List.Nodup.cons ?_ (List.Nodup.filter _ ih)
    intro hmem
    have := List.of_mem_filter hmem
    simp [bne_iff_ne] at this

lemma mem_dictKeys (l : List String) (n : String) :
    n ∈ dictKeys l ↔ n ∈ l := by
  induction l with
  | nil => simp [dictKeys]
  | cons a rest ih =>
    simp only [dictKeys, List.mem_cons]
    constructor
    · rintro (rfl | h)
      · exact Or.inl rfl
      · exact Or.inr (ih.mp (List.mem_of_mem_filter h))
    · rintro (rfl | h)
      · exact Or.inl rfl
      · by_cases hn : n = a
        · exact Or.inl hn
        · exact Or.inr (List.mem_filter.mpr
            ⟨ih.mpr h, by simp [bne_iff_ne, hn]⟩)

/-- Binary select values with a non-positive total are all zero. -/
lemma select_all_zero {ps : List Project} {s : Solution}
    (hb : ∀ p ∈ ps, s.select p.name = 0 ∨ s.select p.name = 1)
    (hsum : (ps.map (fun p => s.select p.name)).sum ≤ 0) :
    ∀ p ∈ ps, s.select p.name = 0 := by
  induction ps with
  | nil => simp
  | cons q rest ih =>
    have hq := hb q (List.mem_cons_self q rest)
    have hrest : ∀ p ∈ rest, s.select p.name = 0 ∨ s.select p.name = 1 :=
      fun p hp => hb p (List.mem_cons_of_mem q hp)
    have hnn : 0 ≤ (rest.map (fun p => s.select p.name)).sum := by
      apply List.sum_nonneg
      intro x hx
      simp only [List.mem_map] at hx
      obtain ⟨p, hp, rfl⟩ := hx
      rcases hrest p hp with h | h <;> omega
    rw [List.map_cons, List.sum_cons] at hsum
    intro p hp
    rcases List.mem_cons.mp hp with rfl | hmem
    · omega
    · exact ih hrest (by omega) p hmem

lemma filter_select_nil {ps : List Project} {s : Solution}
    (hz : ∀ p ∈ ps, s.select p.name = 0) :
    ps.filter (fun p => s.select p.name == 1) = [] := by
  induction ps with
  | nil => rfl
  | cons q rest ih =>
    have hq := hz q (List.mem_cons_self q rest)
    rw [List.filter_cons]
    simp only [hq]
    exact ih fun p hp => hz p (List.mem_cons_of_mem q hp)

/-- Every pair emitted into `team_assignments` comes from a member and a
project of the input collections, with assign value exactly 1. -/
lemma mem_teamAssignments {team : List TeamMember} {ps : List Project}
    {s : Solution} {pr : String × String}
    (h : pr ∈ teamAssignments team ps s) :
    ∃ tm ∈ team, ∃ p ∈ ps, pr = (tm.name, p.name) ∧
      s.assign tm.name p.name = 1 := by
  induction team with
  | nil => simp [teamAssignments] at h
  | cons tm rest ih =>
    simp only [teamAssignments, List.mem_append] at h
    rcases h with h | h
    · simp only [List.mem_map, List.mem_filter, beq_iff_eq] at h
      obtain ⟨p, ⟨hp, hval⟩, rfl⟩ := h
      exact ⟨tm, List.mem_cons_self tm rest, p, hp, rfl, hval⟩
    · obtain ⟨tm', htm', p, hp, heq, hval⟩ := ih h
      exact ⟨tm', List.mem_cons_of_mem tm htm', p, hp, heq, hval⟩

/-- With binary assign values, the model's capacity sum coincides with the
full-effort charge over the projects the member is assigned to. -/
lemma chargedSum_eq_memberChargedHours {ps : List Project} {s : Solution}
    {tm : TeamMember}
    (hb : ∀ p ∈ ps, s.assign tm.name p.name = 0 ∨
      s.assign tm.name p.name = 1) :
    memberChargedHours ps s tm = chargedSum ps s tm := by
  induction ps with
  | nil => rfl
  | cons q rest ih =>
    have hq := hb q (List.mem_cons_self q rest)
    have hrest : ∀ p ∈ rest, s.assign tm.name p.name = 0 ∨
        s.assign tm.name p.name = 1 :=
      fun p hp => hb p (List.mem_cons_of_mem q hp)
    have ihr := ih hrest
    rcases hq with h0 | h1
    · simp only [memberChargedHours, chargedSum, List.filter_cons,
        List.map_cons, List.sum_cons] at ihr ⊢
      simp only [h0]
      norm_num
      exact ihr
    · simp only [memberChargedHours, chargedSum, List.filter_cons,
        List.map_cons, List.sum_cons] at ihr ⊢
      simp only [h1]
      norm_num
      omega

lemma vNear_not_one (n : String) : (vNear.select n == 1) = false := by
  rw [beq_eq_false_iff_ne]
  show (999999 : ℚ)/1000000 ≠ 1
  norm_num

lemma vNear_above_half (n : String) :
    (decide ((1 : ℚ)/2 < vNear.select n)) = true := by
  apply decide_eq_true
  show (1 : ℚ)/2 < 999999/1000000
  norm_num

lemma qbeq_zero_one : ((0 : ℚ) == 1) = false := by
  rw [beq_eq_false_iff_ne]
  norm_num

/-- No feasible solution selects `I&M Work Order generation`: only Bunsen
and Rowlf are qualified for it and neither has 200 hours available. -/
lemma ref_select_IM_zero (s : Solution)
    (h : feasible refProjects refTeam s) :
    s.select "I&M Work Order generation" = 0 := by
  obtain ⟨hbsel, hbass, hle, hpin, hcap, hstaff⟩ := h
  have hcB := hcap m3 (by decide)
  have hcR := hcap m6 (by decide)
  simp [chargedSum, refProjects, p1, p2, p3, p4, p5, m3, m6] at hcB hcR
  have hB1 := hbass m3 (by decide) p1 (by decide)
  have hB2 := hbass m3 (by decide) p2 (by decide)
  have hB3 := hbass m3 (by decide) p3 (by decide)
  have hB4 := hbass m3 (by decide) p4 (by decide)
  have hB5 := hbass m3 (by decide) p5 (by decide)
  have hR1 := hbass m6 (by decide) p1 (by decide)
  have hR2 := hbass m6 (by decide) p2 (by decide)
  have hR3 := hbass m6 (by decide) p3 (by decide)
  have hR4 := hbass m6 (by decide) p4 (by decide)
  have hR5 := hbass m6 (by decide) p5 (by decide)
  simp [m3, m6, p1, p2, p3, p4, p5] at hB1 hB2 hB3 hB4 hB5 hR1 hR2 hR3 hR4 hR5
  have hz1 := hpin p2 (by decide) m1 (by decide) (by decide)
  have hz2 := hpin p2 (by decide) m2 (by decide) (by decide)
  have hz4 := hpin p2 (by decide) m4 (by decide) (by decide)
  have hz5 := hpin p2 (by decide) m5 (by decide) (by decide)
  simp [m1, m2, m4, m5, p2] at hz1 hz2 hz4 hz5
  have hst := hstaff p2 (by decide)
  simp [assignedCount, refTeam, m1, m2, m3, m4, m5, m6, p2] at hst
  have hsb := hbsel p2 (by decide)
  simp [p2] at hsb
  omega

/-- 40 bounds the objective over the reference instance. -/
lemma ref_objective_le (s : Solution)
    (h : feasible refProjects refTeam s) :
    objectiveValue refProjects s ≤ 40 := by
  have hIM := ref_select_IM_zero s h
  obtain ⟨hbsel, -, -, -, -, -⟩ := h
  have h1 := hbsel p1 (by decide)
  have h3 := hbsel p3 (by decide)
  have h4 := hbsel p4 (by decide)
  have h5 := hbsel p5 (by decide)
  simp [p1, p3, p4, p5] at h1 h3 h4 h5
  simp [objectiveValue, refProjects, p1, p2, p3, p4, p5]
  omega

/-- Objective value 40 pins every select variable. -/
lemma ref_optimum_selects (s : Solution)
    (h : feasible refProjects refTeam s)
    (hv : objectiveValue refProjects s = 40) :
    s.select "Secondary Deliverables reporting" = 1 ∧
    s.select "I&M Work Order generation" = 0 ∧
    s.select "ISS" = 1 ∧
    s.select "Network Interventions lists" = 1 ∧
    s.select "Pulse Report report generation" = 1 := by
  have hIM := ref_select_IM_zero s h
  obtain ⟨hbsel, -, -, -, -, -⟩ := h
  have h1 := hbsel p1 (by decide)
  have h3 := hbsel p3 (by decide)
  have h4 := hbsel p4 (by decide)
  have h5 := hbsel p5 (by decide)
  simp [p1, p3, p4, p5] at h1 h3 h4 h5
  simp [objectiveValue, refProjects, p1, p2, p3, p4, p5] at hv
  refine ⟨?_, hIM, ?_, ?_, ?_⟩ <;> omega

/-- At objective 40 the interpreter reports the four projects and a total
of 40. -/
lemma ref_optimum_report (s : Solution)
    (h : feasible refProjects refTeam s)
    (hv : objectiveValue refProjects s = 40) :
    selectedProjectNames refProjects s =
      ["Secondary Deliverables reporting", "ISS",
       "Network Interventions lists", "Pulse Report report generation"] ∧
    totalHoursSaved refProjects s = 40 := by
  obtain ⟨e1, e2, e3, e4, e5⟩ := ref_optimum_selects s h hv
  constructor
  · simp [selectedProjectNames, refProjects, p1, p2, p3, p4, p5,
      List.filter, e1, e2, e3, e4, e5]
  · simp [totalHoursSaved, refProjects, p1, p2, p3, p4, p5, List.filter,
      e1, e2, e3, e4, e5]

/-! ## Claims -/

/-- Claim C1: for the reference scenario — the 5 projects with benefits
[20, 40, 5, 5, 10] and efforts [160, 200, 80, 40, 80] and the 6 team
members with capacities [180, 140, 160, 220, 120, 140], solved with no
concurrency cap — the solve status is Optimal (an optimal solution
exists), and every optimal solution selects exactly Secondary Deliverables
reporting, ISS, Network Interventions lists and Pulse Report report
generation, with total benefit 40. -/
theorem referenceScenario :
    (∃ s, isOptimal refProjects refTeam s) ∧
    (∀ s, isOptimal refProjects refTeam s →
      selectedProjectNames refProjects s =
        ["Secondary Deliverables reporting", "ISS",
         "Network Interventions lists", "Pulse Report report generation"] ∧
      totalHoursSaved refProjects s = 40) := by
  have hfeas : feasible refProjects refTeam refSolution := by decide
  have hval : objectiveValue refProjects refSolution = 40 := by decide
  constructor
  · exact ⟨refSolution, hfeas, fun s' hs' => by
      rw [hval]; exact ref_objective_le s' hs'⟩
  · intro s hs
    have hge : 40 ≤ objectiveValue refProjects s := by
      have := hs.2 refSolution hfeas
      omega
    have hle := ref_objective_le s hs.1
    exact ref_optimum_report s hs.1 (by omega)

/-- Witness for C1: the CBC solution of the notebook run is optimal, and
the theorem yields the reported selection and total at it. -/
theorem referenceScenarioWitness :
    selectedProjectNames refProjects refSolution =
      ["Secondary Deliverables reporting", "ISS",
       "Network Interventions lists", "Pulse Report report generation"] ∧
    totalHoursSaved refProjects refSolution = 40 :=
  referenceScenario.2 refSolution ⟨by decide, fun s' hs' => by
    have hle := ref_objective_le s' hs'
    have hval : objectiveValue refProjects refSolution = 40 := by decide
    omega⟩

/-- Claim C2: with the (spec-modelled, commented-out in the source)
concurrency-cap constraint enabled at bound 0, every feasible solution has
total benefit 0 and an empty selection — hence so does the optimal one,
which exists since the all-zero solution is feasible; and whenever the
bound is enabled at k, the cap constraint `Σ select ≤ k` holds of every
feasible solution. -/
theorem concurrencyCapZero :
    (∀ ps team s, feasibleCap (some 0) ps team s →
      totalHoursSaved ps s = 0 ∧ selectedProjectNames ps s = []) ∧
    (∀ k ps team s, feasibleCap (some k) ps team s →
      (ps.map (fun p => s.select p.name)).sum ≤ k) ∧
    feasibleCap (some 0) refProjects refTeam zeroSolution := by
  refine ⟨?_, ?_, by decide⟩
  · intro ps team s h
    have hz := select_all_zero h.1.1 h.2
    have hf := filter_select_nil hz
    constructor
    · simp [totalHoursSaved, hf]
    · simp [selectedProjectNames, hf]
  · intro k ps team s h
    exact h.2

/-- Witness for C2 at the reference data and the all-zero solution. -/
theorem concurrencyCapZeroWitness :
    totalHoursSaved refProjects zeroSolution = 0 ∧
    selectedProjectNames refProjects zeroSolution = [] :=
  concurrencyCapZero.1 refProjects refTeam zeroSolution (by decide)

/-- Counterexample to claim C3: a `Project` with benefit −5 and effort −3,
and a `TeamMember` with capacity −7, are accepted by construction — the
negative values pass `__post_init__` unchanged, no validation error is
raised. -/
theorem negativeValuesCounterexample :
    mkProject ⟨.pyStr "P", .pyInt (-5), .pyInt (-3), .pyList [.pyStr "SQL"],
        .pyInt 1⟩ = some ⟨"P", -5, -3, ["SQL"], 1⟩ ∧
    mkTeamMember ⟨.pyStr "M", .pyInt (-7), .pyList [], .pyInt 0⟩ =
      some ⟨"M", -7, [], 0⟩ := by decide

/-- Claim C3 as amended: construction performs no sign check — any
integers for benefit, effort or capacity (negative included) are accepted
verbatim whenever the types, level and skills pass the actual
`__post_init__` checks. -/
theorem negativeValuesAccepted (nm : String) (b e c : Int)
    (sk : List String) (lvl : Int) (hl : validLevel lvl = true)
    (hs : validSkills sk = true) :
    mkProject ⟨.pyStr nm, .pyInt b, .pyInt e, .pyList (sk.map .pyStr),
        .pyInt lvl⟩ = some ⟨nm, b, e, sk, lvl⟩ ∧
    mkTeamMember ⟨.pyStr nm, .pyInt c, .pyList (sk.map .pyStr),
        .pyInt lvl⟩ = some ⟨nm, c, sk, lvl⟩ := by
  constructor <;>
    simp [mkProject, mkTeamMember, pyAsStr, pyAsInt, pyAsStrList,
      strListOf_map_pyStr, hl, hs]

/-- Witness for the amended C3 at negative benefit −5, effort −3 and
capacity −7. -/
theorem negativeValuesWitness :
    mkProject ⟨.pyStr "W", .pyInt (-5), .pyInt (-3),
        .pyList (["SQL"].map .pyStr), .pyInt 1⟩ =
      some ⟨"W", -5, -3, ["SQL"], 1⟩ ∧
    mkTeamMember ⟨.pyStr "W", .pyInt (-7), .pyList (["SQL"].map .pyStr),
        .pyInt 1⟩ = some ⟨"W", -7, ["SQL"], 1⟩ :=
  negativeValuesAccepted "W" (-5) (-3) (-7) ["SQL"] 1 (by decide) (by decide)

/-- Counterexample to claim C4: two projects sharing the name "X" do not
make the build fail — the variable index silently collapses them onto one
key, and the built model is a perfectly formed constraint system (the
all-zero solution satisfies it). -/
theorem duplicateNamesCollapse :
    projectVarKeys [dupA, dupB] = ["X"] ∧
    feasible [dupA, dupB] refTeam zeroSolution := by decide

/-- Claim C4 as amended: the builder performs no input validation and
never raises — there is no `max_concurrent_projects` parameter (the cap is
commented out), and a duplicated name is silently merged into the single
dict key that carries it, the key set holding exactly the distinct input
names. -/
theorem builderNeverRejects (ps : List Project) :
    (projectVarKeys ps).Nodup ∧
    (∀ n, n ∈ projectVarKeys ps ↔ n ∈ ps.map (fun p => p.name)) :=
  ⟨dictKeys_nodup _, fun n => mem_dictKeys _ n⟩

/-- Witness for the amended C4 at the duplicate-name input. -/
theorem builderNeverRejectsWitness :
    (projectVarKeys [dupA, dupB]).Nodup ∧
    (∀ n, n ∈ projectVarKeys [dupA, dupB] ↔
      n ∈ [dupA, dupB].map (fun p => p.name)) :=
  builderNeverRejects [dupA, dupB]

/-- Counterexample to claim C5: an adapter value of 0.999999 lies strictly
above 0.5, yet the interpreter (which tests `varValue == 1`) selects
nothing, while the spec's 0.5-threshold reading selects every project. -/
theorem thresholdCounterexample :
    ((1 : ℚ)/2 < vNear.select "ISS") ∧
    qSelectedNames refProjects vNear = [] ∧
    qSelectedNamesSpec refProjects vNear =
      ["Secondary Deliverables reporting", "I&M Work Order generation",
       "ISS", "Network Interventions lists",
       "Pulse Report report generation"] := by
  refine ⟨of_decide_eq_true (vNear_above_half "ISS"), ?_, ?_⟩
  · simp [qSelectedNames, refProjects, List.filter, vNear_not_one]
  · simp only [qSelectedNamesSpec, refProjects, List.filter,
      vNear_above_half]
    decide

/-- Claim C5 as amended: the Result Interpreter classifies a project as
selected exactly when its raw variable value is bit-exactly 1 — a value
merely above the 0.5 threshold is not counted. -/
theorem exactEqualitySelection (ps : List Project) (v : VarValues)
    (p : Project) (hp : p ∈ ps) :
    (v.select p.name = 1 → p.name ∈ qSelectedNames ps v) ∧
    (p.name ∈ qSelectedNames ps v → v.select p.name = 1) := by
  constructor
  · intro h1
    simp only [qSelectedNames, List.mem_map, List.mem_filter]
    exact ⟨p, ⟨hp, by simp [h1]⟩, rfl⟩
  · intro hmem
    simp only [qSelectedNames, List.mem_map, List.mem_filter,
      beq_iff_eq] at hmem
    obtain ⟨q, ⟨hq, hval⟩, hname⟩ := hmem
    rw [← hname]
    exact hval

/-- Witness for the amended C5: `ISS` has value exactly 1 under `vOne` and
is selected. -/
theorem exactEqualityWitness : p3.name ∈ qSelectedNames refProjects vOne :=
  (exactEqualitySelection refProjects vOne p3 (by decide)).1
    (by simp [vOne, p3])

/-- Counterexample to claim C6: with status `Infeasible` the notebook's
extraction still surfaces the selection and total computed from the
variable values — the report does not carry only the status. -/
theorem statusIgnoredCounterexample :
    (interpretResult refProjects refTeam SolveStatus.Infeasible
      vOne).selected = ["ISS"] ∧
    (interpretResult refProjects refTeam
      SolveStatus.Infeasible vOne).totalBenefit = 5 := by
  constructor <;>
    simp [interpretResult, qSelectedNames, qTotalSaved, refProjects,
      p1, p2, p3, p4, p5, vOne, List.filter, qbeq_zero_one]

/-- Claim C6 as amended: the interpretation cells never inspect the
status — the selected projects, assignments and total benefit surfaced for
a non-Optimal status are identical to those surfaced for any other status,
with the status merely carried alongside. -/
theorem interpreterIgnoresStatus (ps : List Project)
    (team : List TeamMember) (st st' : SolveStatus) (v : VarValues)
    (_h : st ≠ SolveStatus.Optimal) :
    (interpretResult ps team st v).selected =
      (interpretResult ps team st' v).selected ∧
    (interpretResult ps team st v).assignments =
      (interpretResult ps team st' v).assignments ∧
    (interpretResult ps team st v).totalBenefit =
      (interpretResult ps team st' v).totalBenefit ∧
    (interpretResult ps team st v).status = st :=
  ⟨rfl, rfl, rfl, rfl⟩

/-- Witness for the amended C6 at status `Infeasible`. -/
theorem interpreterIgnoresStatusWitness :
    (interpretResult refProjects refTeam SolveStatus.Infeasible
        vOne).selected =
      (interpretResult refProjects refTeam SolveStatus.Optimal
        vOne).selected ∧
    (interpretResult refProjects refTeam SolveStatus.Infeasible
        vOne).assignments =
      (interpretResult refProjects refTeam SolveStatus.Optimal
        vOne).assignments ∧
    (interpretResult refProjects refTeam SolveStatus.Infeasible
        vOne).totalBenefit =
      (interpretResult refProjects refTeam SolveStatus.Optimal
        vOne).totalBenefit ∧
    (interpretResult refProjects refTeam SolveStatus.Infeasible
        vOne).status = SolveStatus.Infeasible :=
  interpreterIgnoresStatus refProjects refTeam SolveStatus.Infeasible
    SolveStatus.Optimal vOne (by decide)

/-- Claim C7: in every feasible (hence every solved) instance the model
pins `assign[m,p] = 0` by an equality constraint for every unqualified
pair, and every emitted assignment pair comes from a member and project
with `required_skills[p] ⊆ skills[m]` and `level[m] ≥ required_level[p]`. -/
theorem qualificationInvariant (ps : List Project) (team : List TeamMember)
    (s : Solution) (h : feasible ps team s) :
    (∀ p ∈ ps, ∀ tm ∈ team, ¬ qualified tm p →
      s.assign tm.name p.name = 0) ∧
    (∀ pr ∈ teamAssignments team ps s, ∃ tm ∈ team, ∃ p ∈ ps,
      pr = (tm.name, p.name) ∧ skillsOK p tm ∧
      p.python_level_required ≤ tm.python_level) := by
  refine ⟨h.2.2.2.1, ?_⟩
  intro pr hpr
  obtain ⟨tm, htm, p, hp, heq, hval⟩ := mem_teamAssignments hpr
  refine ⟨tm, htm, p, hp, heq, ?_⟩
  by_contra hq
  have h0 : ¬ qualified tm p := fun hqq => hq ⟨hqq.1, hqq.2⟩
  have := h.2.2.2.1 p hp tm htm h0
  omega

/-- Witness for C7: Sweetums (no SQL) is pinned to 0 on ISS in the
notebook's solution. -/
theorem qualificationWitness :
    refSolution.assign m2.name p3.name = 0 :=
  (qualificationInvariant refProjects refTeam refSolution (by decide)).1
    p3 (by decide) m2 (by decide) (by decide)

/-- Claim C8: in every feasible (hence every solved) instance each
member's capacity constraint holds, and the model's capacity sum equals
the full-effort charge — each project a member is assigned to charges its
entire `hours_to_implement`, not a pro-rata share. -/
theorem capacityInvariant (ps : List Project) (team : List TeamMember)
    (s : Solution) (h : feasible ps team s) :
    ∀ tm ∈ team, chargedSum ps s tm ≤ tm.hours_available ∧
      memberChargedHours ps s tm = chargedSum ps s tm ∧
      memberChargedHours ps s tm ≤ tm.hours_available := by
  intro tm htm
  have hcap := h.2.2.2.2.1 tm htm
  have heq := chargedSum_eq_memberChargedHours (fun p hp => h.2.1 tm htm p hp)
  exact ⟨hcap, heq, by omega⟩

/-- Witness for C8: Pepe's 80 + 40 = 120 hours fit his 120-hour capacity
in the notebook's solution. -/
theorem capacityWitness :
    chargedSum refProjects refSolution m5 ≤ m5.hours_available ∧
    memberChargedHours refProjects refSolution m5 =
      chargedSum refProjects refSolution m5 ∧
    memberChargedHours refProjects refSolution m5 ≤ m5.hours_available :=
  capacityInvariant refProjects refTeam refSolution (by decide) m5
    (by decide)

/-- Claim C9: every successfully constructed entity has its skills inside
the vocabulary APIs/Excel/SQL and its level in 0..3; construction with the
skill "Java", or with a level outside 0..3, fails. -/
theorem vocabularyEnforced :
    (∀ x p, mkProject x = some p →
      (∀ s ∈ p.skills_required, s = "APIs" ∨ s = "Excel" ∨ s = "SQL") ∧
      (p.python_level_required = 0 ∨ p.python_level_required = 1 ∨
        p.python_level_required = 2 ∨ p.python_level_required = 3)) ∧
    (∀ x t, mkTeamMember x = some t →
      (∀ s ∈ t.skills, s = "APIs" ∨ s = "Excel" ∨ s = "SQL") ∧
      (t.python_level = 0 ∨ t.python_level = 1 ∨ t.python_level = 2 ∨
        t.python_level = 3)) ∧
    mkProject ⟨.pyStr "P", .pyInt 5, .pyInt 10, .pyList [.pyStr "Java"],
      .pyInt 1⟩ = none ∧
    mkTeamMember ⟨.pyStr "M", .pyInt 100, .pyList [.pyStr "Java"],
      .pyInt 1⟩ = none ∧
    mkProject ⟨.pyStr "P", .pyInt 5, .pyInt 10, .pyList [.pyStr "SQL"],
      .pyInt 4⟩ = none ∧
    mkTeamMember ⟨.pyStr "M", .pyInt 100, .pyList [.pyStr "SQL"],
      .pyInt (-1)⟩ = none := by
  refine ⟨?_, ?_, by decide, by decide, by decide, by decide⟩
  · intro x p h
    obtain ⟨-, hl, hsk⟩ := mkProject_types h
    exact ⟨validSkills_cases hsk, validLevel_cases hl⟩
  · intro x t h
    obtain ⟨-, hl, hsk⟩ := mkTeamMember_types h
    exact ⟨validSkills_cases hsk, validLevel_cases hl⟩

/-- Witness for C9 at a successfully constructed project. -/
theorem vocabularyWitness :
    (∀ s ∈ (["SQL"] : List String), s = "APIs" ∨ s = "Excel" ∨ s = "SQL") ∧
    ((1 : Int) = 0 ∨ (1 : Int) = 1 ∨ (1 : Int) = 2 ∨ (1 : Int) = 3) :=
  vocabularyEnforced.1 ⟨.pyStr "P", .pyInt 5, .pyInt 10,
    .pyList [.pyStr "SQL"], .pyInt 1⟩ ⟨"P", 5, 10, ["SQL"], 1⟩ (by decide)

/-- Counterexample to claim C10: a `bool` capacity (in range, since
`True == 1`) is accepted by construction although `True` is not exactly of
the annotated `int` type — `isinstance`, not exact type conformance, is
what the code enforces. -/
theorem exactTypeCounterexample :
    (mkTeamMember ⟨.pyStr "X", .pyBool true, .pyList [.pyStr "SQL"],
      .pyInt 1⟩).isSome = true ∧
    pyExactInt (.pyBool true) = false := by decide

/-- Claim C10 as amended: type conformance is enforced via Python's
`isinstance` — a float capacity 160.0 fails even though in range, skills
must be a list of strings, a `bool` (an `int` subclass) is accepted for an
int field, and construction succeeds only when every attribute
isinstance-matches its annotation. -/
theorem typeConformance :
    mkTeamMember ⟨.pyStr "X", .pyFloat 160, .pyList [.pyStr "SQL"],
      .pyInt 1⟩ = none ∧
    mkTeamMember ⟨.pyStr "X", .pyInt 160, .pyStr "SQL", .pyInt 1⟩ = none ∧
    mkTeamMember ⟨.pyStr "X", .pyInt 160, .pyList [.pyBool true],
      .pyInt 1⟩ = none ∧
    (∀ x t, mkTeamMember x = some t → validateTypesTeamMember x = true) ∧
    (∀ x p, mkProject x = some p → validateTypesProject x = true) := by
  refine ⟨by decide, by decide, by decide, ?_, ?_⟩
  · exact fun x t h => (mkTeamMember_types h).1
  · exact fun x p h => (mkProject_types h).1

/-- Witness for the amended C10 at a well-typed input. -/
theorem typeConformanceWitness :
    validateTypesTeamMember ⟨.pyStr "X", .pyInt 160, .pyList [.pyStr "SQL"],
      .pyInt 1⟩ = true :=
  typeConformance.2.2.2.1 ⟨.pyStr "X", .pyInt 160, .pyList [.pyStr "SQL"],
    .pyInt 1⟩ ⟨"X", 160, ["SQL"], 1⟩ (by decide)
